import Mathlib

/-!
Verification of the daily plan allocator of `scripts/generate_plan.py`.

The Python code is shallowly embedded: strings are handled as lists of
characters, the regular expressions of the source (which are all either
plain alternations of literal substrings or simple digit scanners) are
embedded as executable character-list scanners, and `datetime.date` values
are represented by their proleptic-Gregorian ordinal (`date.toordinal`),
which is order-isomorphic to the dates themselves.
-/

namespace GeneratePlan

/-- Lowercase a string to a character list (embeds Python `str.lower()`,
which over the ASCII text used here is a per-character map). -/
def lowerStr (s : String) : List Char := s.toList.map Char.toLower

/-- Test `leadsWith pat cs` : `cs` starts with the literal character pattern `pat`. -/
def leadsWith : List Char → List Char → Bool
  | [], _ => true
  | _ :: _, [] => false
  | p :: ps, c :: cs => p == c && leadsWith ps cs

/-- Test `containsSub pat cs` : `pat` occurs as a contiguous substring of `cs`.
Embeds Python `re.search` on a literal pattern / the `in` operator. -/
def containsSub (pat : List Char) : List Char → Bool
  | [] => pat.isEmpty
  | c :: cs => leadsWith pat (c :: cs) || containsSub pat cs

/-- Test `anySub pats cs` : some literal alternative of `pats` occurs in `cs`.
Embeds `re.search` on an alternation of literal substrings. -/
def anySub (pats : List String) (cs : List Char) : Bool :=
  pats.any fun p => containsSub p.toList cs

/-- Numeric value of a list of decimal digit characters. -/
def digitsToNat (ds : List Char) : Nat :=
  ds.foldl (fun a c => 10 * a + (c.toNat - 48)) 0

/-- Up to `k` leading decimal digits of `cs`, greedily
(embeds a greedy `\d{1,k}` starting at a digit). -/
def takeDigits (k : Nat) (cs : List Char) : List Char :=
  (cs.takeWhile Char.isDigit).take k

/-- First run of digits anywhere in `cs`, read greedily up to 3 digits.
Embeds `re.search(r"(\d{1,3})", text)`. -/
def firstNumberSearch : List Char → Option Nat
  | [] => none
  | c :: cs =>
    if c.isDigit then some (digitsToNat (takeDigits 3 (c :: cs)))
    else firstNumberSearch cs

/-- From a position inside a line, the first digit run before the next
newline, read greedily up to 3 digits; `none` if the line has no digit.
Embeds the `.*?(\d{1,3})` tail of the rules regex (`.` does not cross
newlines, the lazy `.*?` stops at the first digit). -/
def lineDigits : List Char → Option Nat
  | [] => none
  | c :: cs =>
    if c == '\n' then none
    else if c.isDigit then some (digitsToNat (takeDigits 3 (c :: cs)))
    else lineDigits cs

/-- Scan for the first case-insensitive occurrence of "daily" that is
followed by a digit later on the same line, returning that number.
Embeds `re.search(r"Daily.*?(\d{1,3})", text, re.I)`: `re.search` tries
start positions left to right, and a start where "daily" matches but no
digit follows on the line fails and the scan resumes one position later. -/
def dailySearch : List Char → Option Nat
  | [] => none
  | c :: cs =>
    if leadsWith "daily".toList ((c :: cs).map Char.toLower) then
      match lineDigits ((c :: cs).drop 5) with
      | some n => some n
      | none => dailySearch cs
    else dailySearch cs

/-- Embeds `parse_rules`: extract the daily cap from the rules text
(`none` = missing file, which `path.exists()` turns into empty text).
First `Daily.*?(\d{1,3})`, then the first bare integer, then 18. -/
def parse_rules (src : Option String) : Nat :=
  let text := (src.getD "").toList
  match dailySearch text with
  | some n => n
  | none =>
    match firstNumberSearch text with
    | some n => n
    | none => 18

/-- First maximal run of digits in `cs`, as a number (greedy `\d+`). -/
def firstNumberRun : List Char → Option Nat
  | [] => none
  | c :: cs =>
    if c.isDigit then some (digitsToNat ((c :: cs).takeWhile Char.isDigit))
    else firstNumberRun cs

/-- Embeds `parse_duration`: `re.search(r"(\d+)", length_str)`, defaulting
to 60 when the text holds no digit (`int(m.group(1)) if m else 60`). -/
def parse_duration (length_str : String) : Nat :=
  match firstNumberRun length_str.toList with
  | some n => n
  | none => 60

/-- First catalog entry whose (lowercased) key occurs in the lowered name.
Embeds the `for key, pts in activities_map.items(): if key in name_lower`
fallback loop; the list carries the dict items in insertion order. -/
def mapFirst (nl : List Char) : List (String × Nat) → Option Nat
  | [] => none
  | (key, pts) :: rest =>
    if containsSub key.toList nl then some pts else mapFirst nl rest

/-- Rule-1 alternatives: group fitness classes. -/
def groupFitnessPats : List String :=
  ["yoga", "strength", "cycle", "fitness class", "power hour"]

/-- Rule-3 alternatives: personal training / Pilates / physical therapy. -/
def personalPats : List String :=
  ["personal train", "pilates", "physical therap"]

/-- Rule-4 name alternatives: court sports. -/
def courtPats : List String :=
  ["pickle", "pickleball", "tennis", "court sport"]

/-- Bonus-event alternatives (meditation rule). -/
def bonusPats : List String :=
  ["meditation", "sunset yoga", "sunrise yoga", "foam roll", "health fair", "farmer"]

/-- Embeds `compute_points`: ordered rule table, first match wins, then
catalog fallback, then default 1. -/
def compute_points (name location : String) (duration_minutes : Nat)
    (activities_map : List (String × Nat)) : Nat :=
  let nl := lowerStr name
  let ll := lowerStr location
  if anySub groupFitnessPats nl then 5
  else if containsSub "line danc".toList nl then 5
  else if anySub personalPats nl then 5
  else if anySub courtPats nl || containsSub "court sports".toList ll then
    min (duration_minutes / 15) 4
  else if containsSub "golf range".toList nl then 1
  else if anySub ["9 holes", "nine holes"] nl then 2
  else if anySub ["18 holes", "eighteen holes"] nl then 4
  else if containsSub "bocce".toList nl then 1
  else if anySub bonusPats nl then 3
  else
    match mapFirst nl activities_map with
    | some pts => pts
    | none => 1

/-! ### Dates

`datetime.date` values are embedded as their proleptic-Gregorian ordinal
(`date.toordinal`, day 1 = 0001-01-01), which preserves order, equality
and day-stepping. `datetime.date(y, m, d)` raises for out-of-range
components in Python; the embedding is a total function and every date a
claim touches is a valid calendar date. -/

/-- Gregorian leap-year test. -/
def isLeap (y : Nat) : Bool := (y % 4 == 0 && y % 100 != 0) || y % 400 == 0

/-- Days in month `m` of year `y`. -/
def daysInMonth (y m : Nat) : Nat :=
  if m == 2 then (if isLeap y then 29 else 28)
  else if m == 4 || m == 6 || m == 9 || m == 11 then 30
  else 31

/-- Days in year `y` strictly before month `m`. -/
def daysBeforeMonth (y m : Nat) : Nat :=
  (List.range' 1 (m - 1)).foldl (fun a mm => a + daysInMonth y mm) 0

/-- Proleptic-Gregorian ordinal of the date `y-m-d` (`date.toordinal`). -/
def toOrdinal (y m d : Nat) : Nat :=
  365 * (y - 1) + (y - 1) / 4 - (y - 1) / 100 + (y - 1) / 400
    + daysBeforeMonth y m + d

/-! ### Reservation date/time parsing -/

/-- Backtracking step for greedy `\d{1,2}` followed by the literal `sep`
(the separator is never a digit, so the regex backtracking collapses to
this case split). Returns the number and the remainder after `sep`. -/
def parseD12Sep (sep : Char) : List Char → Option (Nat × List Char)
  | c1 :: c2 :: c3 :: rest =>
    if c1.isDigit then
      if c2.isDigit then
        if c3 == sep then some (digitsToNat [c1, c2], rest) else none
      else if c2 == sep then some (digitsToNat [c1], c3 :: rest) else none
    else none
  | [c1, c2] =>
    if c1.isDigit && c2 == sep then some (digitsToNat [c1], []) else none
  | _ => none

/-- Exactly four digits (`\d{4}`). -/
def parseD4 : List Char → Option (Nat × List Char)
  | c1 :: c2 :: c3 :: c4 :: rest =>
    if c1.isDigit && c2.isDigit && c3.isDigit && c4.isDigit then
      some (digitsToNat [c1, c2, c3, c4], rest)
    else none
  | _ => none

/-- Exactly two digits (`\d{2}`). -/
def parseD2 : List Char → Option (Nat × List Char)
  | c1 :: c2 :: rest =>
    if c1.isDigit && c2.isDigit then some (digitsToNat [c1, c2], rest) else none
  | _ => none

/-- Zero-padded two-digit rendering (`f"{n:02d}"` for `n ≥ 0`). -/
def pad2 (n : Nat) : String :=
  if n < 10 then "0" ++ toString n else toString n

/-- Embeds `parse_reservation_datetime`: anchored match of
`(\d{1,2})/(\d{1,2})/(\d{4}),?\s*(\d{1,2}):(\d{2})\s*(AM|PM)?` (re.I),
then 12-hour to 24-hour conversion and `datetime.date(year, month, day)`.
Returns `(date ordinal, time_str, hour, minute)`; `none` embeds the
`(None, None, None, None)` failure result. -/
def parse_reservation_datetime (dt_str : String) : Option (Nat × String × Nat × Nat) :=
  match parseD12Sep '/' dt_str.toList with
  | none => none
  | some (month, r1) =>
    match parseD12Sep '/' r1 with
    | none => none
    | some (day, r2) =>
      match parseD4 r2 with
      | none => none
      | some (year, r3) =>
        let r4 := match r3 with
          | ',' :: rest => rest
          | rest => rest
        let r5 := r4.dropWhile Char.isWhitespace
        match parseD12Sep ':' r5 with
        | none => none
        | some (hour0, r6) =>
          match parseD2 r6 with
          | none => none
          | some (minute, r7) =>
            let r8 := (r7.dropWhile Char.isWhitespace).map Char.toLower
            let isPM := leadsWith "pm".toList r8
            let isAM := leadsWith "am".toList r8
            let hour :=
              if isPM && hour0 < 12 then hour0 + 12
              else if isAM && hour0 == 12 then 0
              else hour0
            some (toOrdinal year month day, pad2 hour ++ ":" ++ pad2 minute,
                  hour, minute)

/-! ### Data model -/

/-- One record of `active_reservations.json`'s `items` array. Each field
is `Option`al because `res.get(...)` tolerates a missing key. -/
structure Reservation where
  dateTime : Option String
  event : Option String
  location : Option String
  length : Option String
deriving DecidableEq, Repr

/-- A scheduled (mandatory) event for one date, as built by the
reservation-grouping loop of `generate_plan` (lines 140-146). -/
structure Entry where
  name : String
  time : Option String
  duration_minutes : Nat
  points : Nat
  location : String
deriving DecidableEq, Repr

/-- A plan item. Mandatory entries carry `time`/`duration`/`location`;
the synthesized bike item has no `time`/`location` key and filler items
have only `name`, `points`, `recommended` — absent keys are `none`. -/
structure PlanItem where
  name : String
  time : Option String
  duration_minutes : Option Nat
  points : Nat
  location : Option String
  recommended : Bool
deriving DecidableEq, Repr

/-- A diverted item: the same payload plus a `reason` tag. -/
structure ExtraItem where
  item : PlanItem
  reason : String
deriving DecidableEq, Repr

/-- One day of the plan. `date` is the ordinal of the day. -/
structure DayPlan where
  date : Nat
  items : List PlanItem
  extras : List ExtraItem
  total_points : Nat
deriving DecidableEq, Repr

/-- The full plan structure of `plan.json`. -/
structure Plan where
  challenge_start : Nat
  challenge_end : Nat
  daily : List DayPlan
deriving DecidableEq, Repr

/-! ### Daily allocator (the per-date body of the `while d <= end_date` loop) -/

/-- The string tag attached to diverted items. -/
def exceedsReason : String := "exceeds_daily_cap"

/-- Mandatory pass (lines 159-174): walk the scheduled events in order,
accept under the cap into `items` with `recommended := true`, divert the
rest to `extras`. The accumulator is `(items, extras, total)`. -/
def mandatoryPass (cap : Nat) :
    List Entry → List PlanItem × List ExtraItem × Nat → List PlanItem × List ExtraItem × Nat
  | [], acc => acc
  | ev :: rest, (items, extras, total) =>
    let pts := ev.points
    let entry : PlanItem :=
      { name := ev.name, time := ev.time, duration_minutes := some ev.duration_minutes,
        points := pts, location := some ev.location, recommended := false }
    if total + pts ≤ cap then
      mandatoryPass cap rest
        (items ++ [{ entry with recommended := true }], extras, total + pts)
    else
      mandatoryPass cap rest (items, extras ++ [⟨entry, exceedsReason⟩], total)

/-- The bike-commute trigger (lines 177-181): the pattern test applied to
one *scheduled* event — name against `pickle|pb|gym|fitness|strength|cycle|yoga`
and location against `fitness|court sports`, both `re.I`. -/
def bikeMatchEv (ev : Entry) : Bool :=
  anySub ["pickle", "pb", "gym", "fitness", "strength", "cycle", "yoga"] (lowerStr ev.name)
    || anySub ["fitness", "court sports"] (lowerStr ev.location)

/-- The synthesized bike-commute item before the cap test (line 185):
the dict has only `name`, `points`, `duration_minutes`, `recommended`. -/
def bikeBase : PlanItem :=
  { name := "Bike commute (round trip 30 min)", time := none,
    duration_minutes := some 30, points := 2, location := none,
    recommended := false }

/-- Bike step (lines 176-191): if any scheduled event matches the pattern,
synthesize the 2-point bike item and subject it to the cap test. -/
def bikeStep (cap : Nat) (scheduled : List Entry)
    (items : List PlanItem) (extras : List ExtraItem) (total : Nat) :
    List PlanItem × List ExtraItem × Nat :=
  if scheduled.any bikeMatchEv then
    if total + bikeBase.points ≤ cap then
      (items ++ [{ bikeBase with recommended := true }], extras, total + bikeBase.points)
    else
      (items, extras ++ [⟨bikeBase, exceedsReason⟩], total)
  else (items, extras, total)

/-- Filler-name pattern (line 196): `15-minute|30-minute|45-minute|walk|rehab`, `re.I`. -/
def fillerMatch (n : String) : Bool :=
  anySub ["15-minute", "30-minute", "45-minute", "walk", "rehab"] (lowerStr n)

/-- Stable insertion, descending by point value: an element inserted from
the left goes before later elements with equal points. -/
def insertD (x : String × Nat) : List (String × Nat) → List (String × Nat)
  | [] => [x]
  | y :: ys => if x.2 < y.2 then y :: insertD x ys else x :: y :: ys

/-- Stable descending sort by point value. Embeds the stable
`single.sort(key=lambda t: t[1], reverse=True)` of line 214: any stable
descending sort computes the same list. -/
def sortD : List (String × Nat) → List (String × Nat)
  | [] => []
  | x :: xs => insertD x (sortD xs)

/-- Remaining headroom (line 194). With `total ≤ cap` (an invariant of the
allocator) the truncated subtraction agrees with Python's; and when
`total > cap` both give a non-positive `remaining`, skipping the filler. -/
def remainingOf (cap total : Nat) : Nat := cap - total

/-- Filler candidates (lines 196-199): catalog entries matching the filler
pattern, or the whole catalog when none match. -/
def candidatesOf (activities_list : List (String × Nat)) : List (String × Nat) :=
  let candidates := activities_list.filter fun np => fillerMatch np.1
  if candidates.isEmpty then activities_list else candidates

/-- Candidate filtering (lines 201-209): drop names already present in
`items` or `extras` (case-insensitive exact name match). -/
def filteredOf (activities_list : List (String × Nat))
    (items : List PlanItem) (extras : List ExtraItem) : List (String × Nat) :=
  (candidatesOf activities_list).filter fun np =>
    !(items.any fun it => lowerStr it.name == lowerStr np.1)
      && !(extras.any fun ex => lowerStr ex.item.name == lowerStr np.1)

/-- The fast-path pool (line 212): filtered candidates fitting the headroom. -/
def singleOf (cap : Nat) (activities_list : List (String × Nat))
    (items : List PlanItem) (extras : List ExtraItem) (total : Nat) :
    List (String × Nat) :=
  (filteredOf activities_list items extras).filter fun np =>
    np.2 ≤ remainingOf cap total

/-- The filler item appended for a chosen candidate (line 216). -/
def fillerItem (b : String × Nat) : PlanItem :=
  { name := b.1, time := none, duration_minutes := none, points := b.2,
    location := none, recommended := true }

/-- Filler step (lines 193-217): when headroom remains and some candidate
fits, append the head of the stable descending sort (`single[0]`) and add
its points; `sortD single = []` exactly when `single` is empty, embedding
the `if single:` guard. -/
def fillerStep (cap : Nat) (activities_list : List (String × Nat))
    (items : List PlanItem) (extras : List ExtraItem) (total : Nat) :
    List PlanItem × Nat :=
  if 0 < remainingOf cap total then
    match sortD (singleOf cap activities_list items extras total) with
    | [] => (items, total)
    | b :: _ => (items ++ [fillerItem b], total + b.2)
  else (items, total)

/-- One day of allocation: the body of the date loop (lines 152-224). -/
def allocate (cap : Nat) (activities_list : List (String × Nat))
    (d : Nat) (scheduled : List Entry) : DayPlan :=
  let m := mandatoryPass cap scheduled ([], [], 0)
  let b := bikeStep cap scheduled m.1 m.2.1 m.2.2
  let f := fillerStep cap activities_list b.1 b.2.1 b.2.2
  { date := d, items := f.1, extras := b.2.1, total_points := f.2 }

/-! ### Plan builder (`generate_plan`) -/

/-- Embeds `datetime.date(2026, 1, 12)` (line 126), as an ordinal. -/
def start_date : Nat := toOrdinal 2026 1 12

/-- Embeds `datetime.date(2026, 2, 15)` (line 127), as an ordinal. -/
def end_date : Nat := toOrdinal 2026 2 15

/-- Embeds `load_reservations`: a missing file (`none`) degrades to the
empty list; a present file contributes its parsed `items` array. -/
def load_reservations (src : Option (List Reservation)) : List Reservation :=
  src.getD []

/-- Fallback event name (line 136): `location.split(">")[-1].strip()`.
`String.splitOn` never returns an empty list, and `String.trim` strips
leading/trailing whitespace like Python `str.strip()`. -/
def lastSegmentName (s : String) : String :=
  ((s.splitOn ">").getLastD "").trim

/-- One iteration of the grouping loop (lines 131-147): parse the date,
skip the record when unparseable, otherwise classify and build the entry,
keyed by its date ordinal. -/
def buildEntry (activities_map : List (String × Nat)) (res : Reservation) :
    Option (Nat × Entry) :=
  match parse_reservation_datetime (res.dateTime.getD "") with
  | none => none
  | some (dt, time_str, _, _) =>
    let name :=
      match res.event with
      | some s => if s ≠ "" then s else lastSegmentName (res.location.getD "")
      | none => lastSegmentName (res.location.getD "")
    let location := res.location.getD ""
    let duration := parse_duration (res.length.getD "60 Minutes")
    let pts := compute_points name location duration activities_map
    some (dt, { name := name, time := some time_str, duration_minutes := duration,
                points := pts, location := location })

/-- Embeds `generate_plan` (lines 120-229) downstream of the input
parsers: `daily_cap` is `parse_rules`' output, `activities_list` /
`activities_map` are `parse_activities`' outputs, and `resSrc` is the
reservation file content. The `while d <= end_date` loop is the map over
`List.range' start_date (end_date + 1 - start_date)`; the
`reservations_by_date` dict keeps per-date insertion order, embedded by
the order-preserving filter. -/
def generate_plan (daily_cap : Nat) (activities_list : List (String × Nat))
    (activities_map : List (String × Nat)) (resSrc : Option (List Reservation)) :
    Plan :=
  let reservations := load_reservations resSrc
  let parsed := reservations.filterMap (buildEntry activities_map)
  let resByDate := fun d => (parsed.filter fun p => p.1 == d).map (·.2)
  { challenge_start := start_date, challenge_end := end_date,
    daily := (List.range' start_date (end_date + 1 - start_date)).map fun d =>
      allocate daily_cap activities_list d (resByDate d) }

/-! ### Derived notions used by the statements -/

/-- Sum of the point values of the items marked `recommended := true`. -/
def recSum (l : List PlanItem) : Nat :=
  ((l.filter fun it => it.recommended).map PlanItem.points).sum

/-- Recognizes the synthesized bike-commute item among plan items: it is
the only kind of item carrying a duration but no location key (mandatory
items always carry a location, filler items never carry a duration). -/
def isBikeShaped (it : PlanItem) : Bool :=
  it.location.isNone && (it.duration_minutes == some 30)

/-- The dates of the daily sequence of a generated plan. -/
def planDates (cap : Nat) (acts amap : List (String × Nat))
    (res : Option (List Reservation)) : List Nat :=
  (generate_plan cap acts amap res).daily.map DayPlan.date

/-! ## Lemmas about the embedded operations -/

theorem recSum_append (l1 l2 : List PlanItem) :
    recSum (l1 ++ l2) = recSum l1 + recSum l2 := by
  simp [recSum, List.filter_append]

theorem recSum_rec_singleton (it : PlanItem) (h : it.recommended = true) :
    recSum [it] = it.points := by
  simp [recSum, h]

theorem insertD_ne_nil (x : String × Nat) (l : List (String × Nat)) :
    insertD x l ≠ [] := by
  cases l with
  | nil => simp [insertD]
  | cons y ys =>
    simp only [insertD]
    split <;> simp

theorem sortD_eq_nil_iff (l : List (String × Nat)) : sortD l = [] ↔ l = [] := by
  cases l with
  | nil => simp [sortD]
  | cons x xs =>
    simp only [sortD]
    constructor
    · intro h; exact absurd h (insertD_ne_nil x (sortD xs))
    · intro h; cases h

/-- The head of the stable descending sort is the first maximum of the
input: the input splits around it with strictly smaller points before and
no larger points after. -/
theorem sortD_cons_decomp :
    ∀ (l : List (String × Nat)) (b : String × Nat) (t : List (String × Nat)),
      sortD l = b :: t →
      ∃ l1 l2, l = l1 ++ b :: l2 ∧ (∀ x ∈ l1, x.2 < b.2) ∧ (∀ x ∈ l2, x.2 ≤ b.2)
  | [], b, t, h => by simp [sortD] at h
  | x :: xs, b, t, h => by
    simp only [sortD] at h
    rcases hs : sortD xs with _ | ⟨y, ys⟩
    · have hxs : xs = [] := (sortD_eq_nil_iff xs).mp hs
      rw [hs] at h
      simp only [insertD] at h
      obtain ⟨hb, -⟩ := List.cons.inj h
      refine ⟨[], [], ?_, by simp, by simp⟩
      simp [hxs, hb]
    · obtain ⟨m1, m2, hdec, hlt, hle⟩ := sortD_cons_decomp xs y ys hs
      rw [hs] at h
      simp only [insertD] at h
      split at h
      case isTrue hxy =>
        obtain ⟨hb, -⟩ := List.cons.inj h
        subst hb
        refine ⟨x :: m1, m2, by simp [hdec], ?_, hle⟩
        intro z hz
        rcases List.mem_cons.mp hz with hz | hz
        · subst hz; exact hxy
        · exact hlt z hz
      case isFalse hxy =>
        obtain ⟨hb, -⟩ := List.cons.inj h
        subst hb
        push_neg at hxy
        refine ⟨[], xs, by simp, by simp, ?_⟩
        intro z hz
        rw [hdec] at hz
        rcases List.mem_append.mp hz with hz | hz
        · exact le_trans (le_of_lt (hlt z hz)) hxy
        · rcases List.mem_cons.mp hz with hz | hz
          · subst hz; exact hxy
          · exact le_trans (hle z hz) hxy

theorem mem_of_sortD_cons {l : List (String × Nat)} {b : String × Nat}
    {t : List (String × Nat)} (h : sortD l = b :: t) : b ∈ l := by
  obtain ⟨l1, l2, hdec, -, -⟩ := sortD_cons_decomp l b t h
  rw [hdec]
  exact List.mem_append.mpr (Or.inr (List.mem_cons_self b l2))

/-- The mandatory pass preserves the cap invariant: the running total is
the sum of recommended points of `items` and stays within the cap. -/
theorem mandatoryPass_inv (cap : Nat) :
    ∀ (sched : List Entry) (items : List PlanItem) (extras : List ExtraItem)
      (total : Nat), total = recSum items → total ≤ cap →
      (mandatoryPass cap sched (items, extras, total)).2.2
          = recSum (mandatoryPass cap sched (items, extras, total)).1
        ∧ (mandatoryPass cap sched (items, extras, total)).2.2 ≤ cap
  | [], items, extras, total, h1, h2 => ⟨h1.symm ▸ h1, h2⟩
  | ev :: rest, items, extras, total, h1, h2 => by
    simp only [mandatoryPass]
    split
    case isTrue hc =>
      apply mandatoryPass_inv cap rest
      · rw [recSum_append, ← h1, recSum_rec_singleton _ rfl]
      · exact hc
    case isFalse hc =>
      exact mandatoryPass_inv cap rest items _ total h1 h2

/-- The bike step preserves the cap invariant. -/
theorem bikeStep_inv (cap : Nat) (sched : List Entry) (items : List PlanItem)
    (extras : List ExtraItem) (total : Nat)
    (h1 : total = recSum items) (h2 : total ≤ cap) :
    (bikeStep cap sched items extras total).2.2
        = recSum (bikeStep cap sched items extras total).1
      ∧ (bikeStep cap sched items extras total).2.2 ≤ cap := by
  unfold bikeStep
  split
  · split
    case isTrue hc =>
      refine ⟨?_, hc⟩
      rw [recSum_append, ← h1, recSum_rec_singleton _ rfl]
    case isFalse hc => exact ⟨h1, h2⟩
  · exact ⟨h1, h2⟩

/-- The filler step preserves the cap invariant: the accepted candidate's
points fit in the remaining headroom. -/
theorem fillerStep_inv (cap : Nat) (acts : List (String × Nat))
    (items : List PlanItem) (extras : List ExtraItem) (total : Nat)
    (h1 : total = recSum items) (h2 : total ≤ cap) :
    (fillerStep cap acts items extras total).2
        = recSum (fillerStep cap acts items extras total).1
      ∧ (fillerStep cap acts items extras total).2 ≤ cap := by
  unfold fillerStep
  split
  case isTrue hrem =>
    rcases hs : sortD (singleOf cap acts items extras total) with _ | ⟨b, t⟩
    · exact ⟨h1, h2⟩
    · dsimp only
      have hb : b ∈ singleOf cap acts items extras total := mem_of_sortD_cons hs
      have hble : b.2 ≤ remainingOf cap total := by
        have := List.of_mem_filter hb
        exact of_decide_eq_true this
      constructor
      · rw [recSum_append, ← h1, recSum_rec_singleton _ rfl]
        rfl
      · have : remainingOf cap total = cap - total := rfl
        omega
  case isFalse hrem => exact ⟨h1, h2⟩

/-- The cap invariant for a whole allocated day. -/
theorem allocate_inv (cap : Nat) (acts : List (String × Nat)) (d : Nat)
    (sched : List Entry) :
    (allocate cap acts d sched).total_points
        = recSum (allocate cap acts d sched).items
      ∧ (allocate cap acts d sched).total_points ≤ cap := by
  have hm := mandatoryPass_inv cap sched [] [] 0 (by simp [recSum]) (Nat.zero_le cap)
  have hb := bikeStep_inv cap sched (mandatoryPass cap sched ([], [], 0)).1
    (mandatoryPass cap sched ([], [], 0)).2.1
    (mandatoryPass cap sched ([], [], 0)).2.2 hm.1 hm.2
  have hf := fillerStep_inv cap acts
    (bikeStep cap sched (mandatoryPass cap sched ([], [], 0)).1
      (mandatoryPass cap sched ([], [], 0)).2.1
      (mandatoryPass cap sched ([], [], 0)).2.2).1
    (bikeStep cap sched (mandatoryPass cap sched ([], [], 0)).1
      (mandatoryPass cap sched ([], [], 0)).2.1
      (mandatoryPass cap sched ([], [], 0)).2.2).2.1
    (bikeStep cap sched (mandatoryPass cap sched ([], [], 0)).1
      (mandatoryPass cap sched ([], [], 0)).2.1
      (mandatoryPass cap sched ([], [], 0)).2.2).2.2 hb.1 hb.2
  exact hf

/-! ## C1 -/

/-- C1. For every `DayPlan` produced by the allocator, for any inputs
(reservations, catalog, rules), `total_points` equals the sum of the
points of the items marked `recommended = true`, and `total_points` is at
most the daily cap. -/
theorem generate_plan_dayplan_invariant (cap : Nat) (acts amap : List (String × Nat))
    (res : Option (List Reservation)) :
    ∀ dp ∈ (generate_plan cap acts amap res).daily,
      dp.total_points = recSum dp.items ∧ dp.total_points ≤ cap := by
  intro dp hdp
  simp only [generate_plan, List.mem_map] at hdp
  obtain ⟨d, -, rfl⟩ := hdp
  exact allocate_inv cap acts d _

/-- Witness for C1: the invariant evaluated on a concrete day plan. -/
theorem generate_plan_dayplan_invariant_witness :
    (⟨start_date, [], [], 0⟩ : DayPlan).total_points
        = recSum (⟨start_date, [], [], 0⟩ : DayPlan).items
      ∧ (⟨start_date, [], [], 0⟩ : DayPlan).total_points ≤ 0 :=
  generate_plan_dayplan_invariant 0 [] [] none
    ⟨start_date, [], [], 0⟩ (by decide)

/-! ## C5 -/

/-- The dates of the generated plan are exactly the 35-day range from the
hardcoded challenge start. -/
theorem planDates_eq (cap : Nat) (acts amap : List (String × Nat))
    (res : Option (List Reservation)) :
    planDates cap acts amap res = List.range' start_date 35 := by
  have h35 : end_date + 1 - start_date = 35 := by decide
  simp only [planDates, generate_plan, List.map_map, h35]
  exact List.map_id' _

/-- C5. The plan's daily sequence contains exactly one `DayPlan` for every
date in `[challenge_start, challenge_end]` inclusive, in strictly
ascending order, with no gaps and no duplicates, for every input
reservation list (and catalog and cap). -/
theorem plan_daily_dates_complete (cap : Nat) (acts amap : List (String × Nat))
    (res : Option (List Reservation)) :
    planDates cap acts amap res = List.range' start_date 35
      ∧ List.Chain' (· < ·) (planDates cap acts amap res)
      ∧ (∀ d, start_date ≤ d → d ≤ end_date →
          (planDates cap acts amap res).count d = 1)
      ∧ (∀ d ∈ planDates cap acts amap res, start_date ≤ d ∧ d ≤ end_date) := by
  have he := planDates_eq cap acts amap res
  have hse : end_date + 1 = start_date + 35 := by decide
  refine ⟨he, ?_, ?_, ?_⟩
  · rw [he]
    exact (List.pairwise_lt_range' start_date 35).chain'
  · intro d h1 h2
    rw [he]
    apply List.count_eq_one_of_mem (List.nodup_range' start_date 35)
    rw [List.mem_range'_1]
    exact ⟨h1, by omega⟩
  · intro d hd
    rw [he, List.mem_range'_1] at hd
    omega

/-- Witness for C5: in a concretely generated plan, the first challenge
date occurs exactly once, and every listed date is within the range. -/
theorem plan_daily_dates_complete_witness :
    (planDates 18 [] [] none).count start_date = 1
      ∧ (start_date ≤ start_date ∧ start_date ≤ end_date) :=
  ⟨(plan_daily_dates_complete 18 [] [] none).2.2.1 start_date (le_refl _)
      (by decide),
   (plan_daily_dates_complete 18 [] [] none).2.2.2 start_date (by decide)⟩

/-! ## C6 -/

/-- C6. In the filler fast path (positive headroom, nonempty pool), the
allocator accepts exactly one item: the one with the maximum point value,
ties broken by catalog order (the first such maximum), and no further
filler is added. -/
theorem filler_fast_path_first_max (cap : Nat) (acts : List (String × Nat))
    (items : List PlanItem) (extras : List ExtraItem) (total : Nat)
    (hrem : 0 < remainingOf cap total)
    (hne : singleOf cap acts items extras total ≠ []) :
    ∃ l1 b l2, singleOf cap acts items extras total = l1 ++ b :: l2
      ∧ fillerStep cap acts items extras total
          = (items ++ [fillerItem b], total + b.2)
      ∧ (∀ x ∈ singleOf cap acts items extras total, x.2 ≤ b.2)
      ∧ (∀ x ∈ l1, x.2 < b.2) := by
  rcases hs : sortD (singleOf cap acts items extras total) with _ | ⟨b, t⟩
  · exact absurd ((sortD_eq_nil_iff _).mp hs) hne
  · obtain ⟨l1, l2, hdec, hlt, hle⟩ := sortD_cons_decomp _ b t hs
    refine ⟨l1, b, l2, hdec, ?_, ?_, hlt⟩
    · unfold fillerStep
      rw [if_pos hrem, hs]
    · intro x hx
      rw [hdec] at hx
      rcases List.mem_append.mp hx with hx | hx
      · exact le_of_lt (hlt x hx)
      · rcases List.mem_cons.mp hx with hx | hx
        · subst hx; exact le_refl _
        · exact hle x hx

/-- Witness for C6: the spec's own example — cap 18, mandatory total 14,
catalog `[("Walk 15 min", 2), ("Stretch", 3), ("Rehab", 4)]` — where the
fast path must select "Rehab" (4 points). -/
theorem filler_fast_path_first_max_witness :
    ∃ l1 b l2,
      singleOf 18 [("Walk 15 min", 2), ("Stretch", 3), ("Rehab", 4)] [] [] 14
          = l1 ++ b :: l2
      ∧ fillerStep 18 [("Walk 15 min", 2), ("Stretch", 3), ("Rehab", 4)] [] [] 14
          = ([fillerItem b], 14 + b.2)
      ∧ (∀ x ∈ singleOf 18 [("Walk 15 min", 2), ("Stretch", 3), ("Rehab", 4)]
            [] [] 14, x.2 ≤ b.2)
      ∧ (∀ x ∈ l1, x.2 < b.2) :=
  filler_fast_path_first_max 18 [("Walk 15 min", 2), ("Stretch", 3), ("Rehab", 4)]
    [] [] 14 (by decide) (by decide)

/-! ## C2 -/

/-- C2 counterexample. With filler candidates of point values
`[5, 4, 3]` and remaining headroom 7 (cap 7, no mandatory events), the
allocator selects the single 5-point item for a total of 5 — not the
subset `{4, 3}` with total 7 that the claimed exact subset-sum fallback
would produce. -/
theorem filler_no_subset_sum_counterexample :
    (allocate 7 [("Walk A", 5), ("Walk B", 4), ("Walk C", 3)] 0 []).items
        = [fillerItem ("Walk A", 5)]
      ∧ (allocate 7 [("Walk A", 5), ("Walk B", 4), ("Walk C", 3)] 0 []).total_points
          = 5
      ∧ (5 : Nat) ≠ 7 := by
  refine ⟨?_, ?_, by decide⟩ <;> rfl

/-- C2 as amended. The allocator has no exact subset-sum fallback: the
filler phase adds at most one item (the fast-path pick), and when no
single candidate fits the remaining headroom it adds nothing at all. -/
theorem filler_single_item_only :
    (∀ cap acts items extras total,
        fillerStep cap acts items extras total = (items, total)
        ∨ ∃ b, b ∈ singleOf cap acts items extras total
            ∧ fillerStep cap acts items extras total
                = (items ++ [fillerItem b], total + b.2))
      ∧ fillerStep 7 [("Walk A", 9), ("Walk B", 8)] [] [] 0 = ([], 0) := by
  constructor
  · intro cap acts items extras total
    unfold fillerStep
    split
    · rcases hs : sortD (singleOf cap acts items extras total) with _ | ⟨b, t⟩
      · exact Or.inl rfl
      · exact Or.inr ⟨b, mem_of_sortD_cons hs, rfl⟩
    · exact Or.inl rfl
  · rfl

/-! ## C3 -/

/-- C3 counterexample. The classifier gives "Sunrise Yoga" 5 points (the
group-fitness rule matches "yoga" first), not the 3 points the bonus-event
rule would give. -/
theorem sunrise_yoga_counterexample :
    compute_points "Sunrise Yoga" "Wellness Center" 45 [] = 5
      ∧ (5 : Nat) ≠ 3 :=
  ⟨rfl, by decide⟩

/-- C3 as amended. The event classifier assigns 5 points to an event named
"Sunrise Yoga" for every duration, location and catalog: the group-fitness
rule (which matches the substring "yoga") precedes the bonus-event rule in
the first-match-wins table. -/
theorem sunrise_yoga_points_five (location : String) (dur : Nat)
    (amap : List (String × Nat)) :
    compute_points "Sunrise Yoga" location dur amap = 5 := rfl

/-! ## C10 -/

/-- C10. For an event classified by the court-sports rule (name matching a
court pattern or location containing "court sports", no earlier rule
matching) with `duration_minutes < 15`, the classifier returns 0 points —
below the default floor of 1 — because the court rule computes
`min(duration / 15, 4)` before the default can apply. -/
theorem court_sports_zero_points (name location : String) (dur : Nat)
    (amap : List (String × Nat))
    (h1 : anySub groupFitnessPats (lowerStr name) = false)
    (h2 : containsSub "line danc".toList (lowerStr name) = false)
    (h3 : anySub personalPats (lowerStr name) = false)
    (h4 : (anySub courtPats (lowerStr name)
        || containsSub "court sports".toList (lowerStr location)) = true)
    (h5 : dur < 15) :
    compute_points name location dur amap = 0 := by
  simp only [compute_points, h1, h2, h3, h4, Bool.false_eq_true, if_false,
    if_true, Nat.div_eq_of_lt h5]
  decide

/-- Witness for C10: a 10-minute pickleball booking scores 0 points. -/
theorem court_sports_zero_points_witness :
    compute_points "Pickleball Open Play" "" 10 [] = 0 :=
  court_sports_zero_points "Pickleball Open Play" "" 10 []
    (by decide) (by decide) (by decide) (by decide) (by decide)

/-! ## C4 -/

/-- The filler step never adds a bike-shaped item (filler items carry no
duration). -/
theorem fillerStep_any_bike (cap : Nat) (acts : List (String × Nat))
    (items : List PlanItem) (extras : List ExtraItem) (total : Nat) :
    (fillerStep cap acts items extras total).1.any isBikeShaped
      = items.any isBikeShaped := by
  unfold fillerStep
  split
  · rcases hs : sortD (singleOf cap acts items extras total) with _ | ⟨b, t⟩
    · rfl
    · dsimp only
      rw [List.any_append]
      simp [fillerItem, isBikeShaped]
  · rfl

/-- The mandatory pass never adds a bike-shaped item to either side
(mandatory entries always carry a location). -/
theorem mandatoryPass_any_bike (cap : Nat) :
    ∀ (sched : List Entry) (items : List PlanItem) (extras : List ExtraItem)
      (total : Nat),
      (mandatoryPass cap sched (items, extras, total)).1.any isBikeShaped
          = items.any isBikeShaped
        ∧ (mandatoryPass cap sched (items, extras, total)).2.1.any
              (fun e => isBikeShaped e.item)
            = extras.any (fun e => isBikeShaped e.item)
  | [], items, extras, total => ⟨rfl, rfl⟩
  | ev :: rest, items, extras, total => by
    simp only [mandatoryPass]
    split
    · constructor
      · rw [(mandatoryPass_any_bike cap rest _ _ _).1, List.any_append]
        simp [isBikeShaped]
      · exact (mandatoryPass_any_bike cap rest _ _ _).2
    · constructor
      · exact (mandatoryPass_any_bike cap rest _ _ _).1
      · rw [(mandatoryPass_any_bike cap rest _ _ _).2, List.any_append]
        simp [isBikeShaped]

/-- C4 as amended. The bike-commute item is synthesized (accepted into
`items` or diverted to `extras`) if and only if some event of the day's
*scheduled list* — accepted or rejected alike — matches the
gym/pickleball/fitness pattern: the trigger scans `scheduled`, not the
accepted set. -/
theorem bike_commute_iff_scheduled_match (cap : Nat) (acts : List (String × Nat))
    (d : Nat) (sched : List Entry) :
    ((allocate cap acts d sched).items.any isBikeShaped
        || (allocate cap acts d sched).extras.any fun e => isBikeShaped e.item)
      = sched.any bikeMatchEv := by
  have hm := mandatoryPass_any_bike cap sched [] [] 0
  have hitems : (allocate cap acts d sched).items
      = (fillerStep cap acts
          (bikeStep cap sched (mandatoryPass cap sched ([], [], 0)).1
            (mandatoryPass cap sched ([], [], 0)).2.1
            (mandatoryPass cap sched ([], [], 0)).2.2).1
          (bikeStep cap sched (mandatoryPass cap sched ([], [], 0)).1
            (mandatoryPass cap sched ([], [], 0)).2.1
            (mandatoryPass cap sched ([], [], 0)).2.2).2.1
          (bikeStep cap sched (mandatoryPass cap sched ([], [], 0)).1
            (mandatoryPass cap sched ([], [], 0)).2.1
            (mandatoryPass cap sched ([], [], 0)).2.2).2.2).1 := rfl
  have hextras : (allocate cap acts d sched).extras
      = (bikeStep cap sched (mandatoryPass cap sched ([], [], 0)).1
          (mandatoryPass cap sched ([], [], 0)).2.1
          (mandatoryPass cap sched ([], [], 0)).2.2).2.1 := rfl
  rw [hitems, hextras, fillerStep_any_bike]
  unfold bikeStep
  split
  case isTrue hany =>
    split
    · dsimp only
      rw [List.any_append, hm.1, hm.2, hany]
      simp [isBikeShaped, bikeBase]
    · dsimp only
      rw [List.any_append, hm.1, hm.2, hany]
      simp [isBikeShaped, bikeBase]
  case isFalse hany =>
    dsimp only
    rw [hm.1, hm.2]
    simp only [List.any_nil, Bool.or_self]
    exact (Bool.eq_false_iff.mpr hany).symm

/-- C4 counterexample. With cap 3, the only scheduled event — a 5-point
"Strength Class" — is diverted to `extras`, yet the bike-commute item is
still synthesized and accepted: the trigger looks at scheduled events,
not accepted ones, refuting the claim that such a day gets no
bike-commute item. -/
theorem bike_commute_counterexample :
    (allocate 3 [] 0 [⟨"Strength Class", none, 60, 5, ""⟩]).items
        = [{ bikeBase with recommended := true }]
      ∧ (allocate 3 [] 0 [⟨"Strength Class", none, 60, 5, ""⟩]).extras.map
            (fun e => e.item.name)
          = ["Strength Class"] :=
  ⟨rfl, rfl⟩

/-! ## C9 -/

theorem firstNumberSearch_none :
    ∀ l : List Char, (∀ c ∈ l, ¬ c.isDigit) → firstNumberSearch l = none
  | [], _ => rfl
  | c :: cs, h => by
    have hc : ¬ c.isDigit = true := h c (List.mem_cons_self c cs)
    simp only [firstNumberSearch, hc, if_false]
    exact firstNumberSearch_none cs fun x hx => h x (List.mem_cons_of_mem c hx)

theorem firstNumberRun_none :
    ∀ l : List Char, (∀ c ∈ l, ¬ c.isDigit) → firstNumberRun l = none
  | [], _ => rfl
  | c :: cs, h => by
    have hc : ¬ c.isDigit = true := h c (List.mem_cons_self c cs)
    simp only [firstNumberRun, hc, if_false]
    exact firstNumberRun_none cs fun x hx => h x (List.mem_cons_of_mem c hx)

theorem lineDigits_none :
    ∀ l : List Char, (∀ c ∈ l, ¬ c.isDigit) → lineDigits l = none
  | [], _ => rfl
  | c :: cs, h => by
    have hc : ¬ c.isDigit = true := h c (List.mem_cons_self c cs)
    simp only [lineDigits, hc, if_false]
    split
    · rfl
    · exact lineDigits_none cs fun x hx => h x (List.mem_cons_of_mem c hx)

theorem dailySearch_none :
    ∀ l : List Char, (∀ c ∈ l, ¬ c.isDigit) → dailySearch l = none
  | [], _ => rfl
  | c :: cs, h => by
    have htail : ∀ x ∈ cs, ¬ x.isDigit :=
      fun x hx => h x (List.mem_cons_of_mem c hx)
    have hrest : dailySearch cs = none := dailySearch_none cs htail
    have hline : lineDigits ((c :: cs).drop 5) = none :=
      lineDigits_none _ fun x hx => h x (List.mem_of_mem_drop hx)
    simp only [dailySearch, hline, hrest]
    split <;> rfl

/-- C9 counterexample. In a rules document whose first "Daily" line has an
incidental number ("Daily steps walk 5 km") and whose explicit
"Daily Total" line says 12, the parsed cap is 5, not the 12 the claim's
"Daily Total … N" pattern would select. -/
theorem daily_total_pattern_counterexample :
    parse_rules (some "Daily steps walk 5 km\nDaily Total 12") = 5
      ∧ (5 : Nat) ≠ 12 :=
  ⟨rfl, by decide⟩

/-- C9 as amended. The cap comes from the first case-insensitive
occurrence of "Daily" followed by a number on the same line — "Daily
Total" has no special status; with no such occurrence the first bare
integer is used, and a document with no digit at all yields 18. -/
theorem parse_rules_amended :
    (∀ (s : String) (n : Nat), dailySearch s.toList = some n →
        parse_rules (some s) = n)
      ∧ (∀ s : String, (∀ c ∈ s.toList, ¬ c.isDigit) → parse_rules (some s) = 18)
      ∧ parse_rules (some "Daily steps walk 5 km\nDaily Total 12") = 5
      ∧ parse_rules (some "3 things\nDaily foo 5") = 5
      ∧ parse_rules (some "Max 7 per day") = 7
      ∧ parse_rules none = 18 := by
  refine ⟨?_, ?_, rfl, rfl, rfl, rfl⟩
  · intro s n h
    have h' : dailySearch s.data = some n := h
    simp [parse_rules, h']
  · intro s h
    have h1 : dailySearch s.data = none := dailySearch_none _ h
    have h2 : firstNumberSearch s.data = none := firstNumberSearch_none _ h
    simp [parse_rules, h1, h2]

/-- Witness for C9: the amended rule evaluated on concrete documents. -/
theorem parse_rules_amended_witness :
    parse_rules (some "Daily cap is 16") = 16
      ∧ parse_rules (some "no numbers at all") = 18 :=
  ⟨parse_rules_amended.1 "Daily cap is 16" 16 (by decide),
   parse_rules_amended.2.1 "no numbers at all" (by decide)⟩

/-! ## C7 -/

/-- C7 counterexample. With the reservation source missing entirely (and
no explicit date range anywhere), the generator does not fail: it writes
a complete plan of 35 days spanning the hardcoded challenge dates. -/
theorem missing_source_counterexample :
    (generate_plan 18 [] [] none).daily.length = 35
      ∧ (generate_plan 18 [] [] none).challenge_start = start_date
      ∧ (generate_plan 18 [] [] none).challenge_end = end_date :=
  ⟨rfl, rfl, rfl⟩

/-- C7 as amended. `generate_plan` never derives challenge boundaries from
any input and never signals a failure: a missing reservation source
degrades to the empty list (same output as an empty source), and for every
input a full 35-day plan over the hardcoded 2026-01-12..2026-02-15 range
is produced. -/
theorem generate_plan_no_boundary_failure :
    (∀ cap acts amap,
        generate_plan cap acts amap none = generate_plan cap acts amap (some []))
      ∧ (∀ cap acts amap res,
          (generate_plan cap acts amap res).daily.length = 35
            ∧ (generate_plan cap acts amap res).challenge_start = start_date
            ∧ (generate_plan cap acts amap res).challenge_end = end_date) := by
  constructor
  · intro cap acts amap
    rfl
  · intro cap acts amap res
    refine ⟨?_, rfl, rfl⟩
    simp only [generate_plan, List.length_map, List.length_range']
    decide

/-! ## C8 -/

/-- C8 counterexample. A reservation whose `Length` text contains no
number ("no duration info") is *not* skipped: it is included in the plan
with the defaulted duration of 60 minutes. -/
theorem unparseable_length_counterexample :
    (generate_plan 18 [] []
        (some [⟨some "1/15/2026, 9:00 AM", some "Bocce", some "",
          some "no duration info"⟩])).daily[3]?
      = some ⟨739631, [⟨"Bocce", some "09:00", some 60, 1, some "", true⟩], [], 1⟩ :=
  rfl

/-- C8 as amended. A reservation whose `Date & Time` is unparseable is
skipped entirely (it contributes nothing to the plan), but an unparseable
`Length` is not a skip: `parse_duration` defaults to 60 whenever the text
has no digit, so such records are included with a defaulted duration. -/
theorem reservation_skip_and_duration_default :
    (∀ cap acts amap (res : Reservation) rest,
        parse_reservation_datetime (res.dateTime.getD "") = none →
        generate_plan cap acts amap (some (res :: rest))
          = generate_plan cap acts amap (some rest))
      ∧ (∀ s : String, (∀ c ∈ s.toList, ¬ c.isDigit) → parse_duration s = 60) := by
  constructor
  · intro cap acts amap res rest h
    simp [generate_plan, load_reservations, List.filterMap_cons, buildEntry, h]
  · intro s h
    have h1 : firstNumberRun s.data = none := firstNumberRun_none _ h
    simp [parse_duration, h1]

/-- Witness for C8: a record with garbage date is dropped; a digit-free
length yields 60. -/
theorem reservation_skip_and_duration_default_witness :
    generate_plan 18 [] [] (some [⟨some "garbage", some "X", some "", some ""⟩])
        = generate_plan 18 [] [] (some [])
      ∧ parse_duration "abc" = 60 :=
  ⟨reservation_skip_and_duration_default.1 18 [] []
      ⟨some "garbage", some "X", some "", some ""⟩ [] (by decide),
   reservation_skip_and_duration_default.2 "abc" (by decide)⟩

end GeneratePlan
